import Mathlib

/-!
Verification of the spare-buffer primitive: a wrapper around a growable
vector that exposes the reserved-but-unused tail capacity as a writable
window, which a caller fills and then commits (a pure length update).

The embedding models `Vec<T>` as a logical length `len` together with the
raw backing store `mem` (whose length is the reserved capacity); the
committed contents are `mem.take len` and the spare window is `mem.drop len`.
Freshly reserved cells are filled with a caller-chosen `junk` element,
standing for the unspecified contents of uninitialized memory.
`usize` arithmetic is modelled over `Nat` with an explicit bound
`USIZE_MAX`; `checked_add` failure is the comparison against that bound.
`commit` returns a three-way outcome: `panic` (a fatal assertion, which
aborts the process and hence yields no successor state), `fail` (the
recoverable limit-exceeded error, carrying the successor state), or `ok`.
-/

namespace SpareBuf

def USIZE_MAX : Nat := 2 ^ 64 - 1

/-- Model of `Vec<T>`: logical length plus raw backing store. -/
structure Vec (α : Type) where
  len : Nat
  mem : List α
deriving DecidableEq

/-- `Vec::capacity`: the length of the backing store. -/
def Vec.capacity (v : Vec α) : Nat := v.mem.length

/-- `Vec::as_slice` / indexing `&buffer[..]`: the committed prefix. -/
def Vec.asSlice (v : Vec α) : List α := v.mem.take v.len

/-- `Vec::is_empty`. -/
def Vec.isEmpty (v : Vec α) : Bool := v.len == 0

/-- `Vec::reserve(additional)`: ensure capacity for at least `len + additional`
elements.  Does nothing when the spare capacity already suffices; otherwise
grows the store, the fresh cells holding the unspecified value `junk`. -/
def Vec.reserve (v : Vec α) (additional : Nat) (junk : α) : Vec α :=
  if v.mem.length < v.len + additional then
    { v with mem := v.mem ++ List.replicate (v.len + additional - v.mem.length) junk }
  else
    v

/-- `Vec::spare_capacity_mut` (after the raw-pointer reinterpretation in
`allocate_spare`): the whole unused tail of the backing store. -/
def Vec.spareCapacityMut (v : Vec α) : List α := v.mem.drop v.len

/-- `Vec::set_len`. -/
def Vec.setLen (v : Vec α) (n : Nat) : Vec α := { v with len := n }

/-- Well-formedness of a real `Vec`: the logical length never exceeds the
reserved capacity. -/
def Vec.WF (v : Vec α) : Prop := v.len ≤ v.mem.length

instance (v : Vec α) : Decidable v.WF := by unfold Vec.WF; infer_instance

/-- The `SpareBuffer` struct: the borrowed vector, the optional length
limit (`NonZeroUsize` is modelled as a `Nat` that callers keep positive),
and the `allocated` flag. -/
structure SpareBuffer (α : Type) where
  buffer : Vec α
  limit : Option Nat
  allocated : Bool
deriving DecidableEq

/-- `SpareBuffer::from`: wrap a vector with an optional limit. -/
def SpareBuffer.fromVec (buffer : Vec α) (limit : Option Nat) : SpareBuffer α :=
  { buffer := buffer, limit := limit, allocated := false }

/-- `SpareBuffer::len`. -/
def SpareBuffer.len (s : SpareBuffer α) : Nat := s.buffer.len

/-- `SpareBuffer::is_empty`. -/
def SpareBuffer.is_empty (s : SpareBuffer α) : Bool := s.buffer.isEmpty

/-- `SpareBuffer::data`: read-only view of the committed elements. -/
def SpareBuffer.data (s : SpareBuffer α) : List α := s.buffer.asSlice

/-- `SpareBuffer::allocate_spare(length)`: reserve capacity for `length`
additional elements, set `allocated`, and hand out the whole spare tail as
the writable window.  Returns the updated buffer and the window. -/
def SpareBuffer.allocate_spare (s : SpareBuffer α) (length : Nat) (junk : α) :
    SpareBuffer α × List α :=
  let b := s.buffer.reserve length junk
  ({ buffer := b, limit := s.limit, allocated := true }, b.spareCapacityMut)

/-- Outcome of `SpareBuffer::commit`: a fatal panic (process aborts, no
successor state), the recoverable limit-exceeded `Err` (with the state the
buffer is left in), or `Ok` with the new state. -/
inductive CommitResult (α : Type) where
  | panic (msg : String)
  | fail (s : SpareBuffer α) (msg : String)
  | ok (s : SpareBuffer α)
deriving DecidableEq

/-- `SpareBuffer::commit(additional)`, following the source line by line:
`mem::replace` clears `allocated` and asserts the old value; for positive
`additional` the new length is computed with `checked_add` (panicking on
`usize` overflow), asserted against the capacity, and compared against the
limit (`usize::MAX` when none): within the limit `set_len` grows the
vector, otherwise the `ErrorKind::OutOfMemory` error is returned. -/
def SpareBuffer.commit (s : SpareBuffer α) (additional : Nat) : CommitResult α :=
  if s.allocated = true then
    if 0 < additional then
      if USIZE_MAX < s.buffer.len + additional then
        .panic "Numerical overflow! (new_length)"
      else
        if s.buffer.len + additional ≤ s.buffer.capacity then
          if s.buffer.len + additional ≤ s.limit.getD USIZE_MAX then
            .ok { s with buffer := s.buffer.setLen (s.buffer.len + additional),
                         allocated := false }
          else
            .fail { s with allocated := false }
              "The new length exceeds the specified limit!"
        else
          .panic "Commit size exceeds available capacity!"
    else
      .ok { s with allocated := false }
  else
    .panic "No spare buffer allocated!"

/-- `SpareBuffer::commit_unchecked(additional)`: clear `allocated` and grow
the length, with no checks at all. -/
def SpareBuffer.commit_unchecked (s : SpareBuffer α) (additional : Nat) : SpareBuffer α :=
  let t : SpareBuffer α := { s with allocated := false }
  if 0 < additional then { t with buffer := t.buffer.setLen (t.buffer.len + additional) }
  else t

/-- Total of the committed counts of an `allocate_spare(n)/commit(k)`
trace. -/
def sumK (ops : List (Nat × Nat)) : Nat := (ops.map Prod.snd).sum

/-- Run a trace of `allocate_spare(n)/commit(k)` rounds, requiring every
commit to succeed (`none` as soon as one does not return `Ok`). -/
def runCommits (junk : α) (s : SpareBuffer α) : List (Nat × Nat) → Option (SpareBuffer α)
  | [] => some s
  | (n, k) :: rest =>
    match (s.allocate_spare n junk).1.commit k with
    | .ok t => runCommits junk t rest
    | _ => none

/-- Along a trace of `allocate_spare(n)/commit(k)` rounds, every committed
count `k` is at most the size of the window handed out by that round's
`allocate_spare`. -/
def windowsOk (junk : α) (s : SpareBuffer α) : List (Nat × Nat) → Bool
  | [] => true
  | (n, k) :: rest =>
    decide (k ≤ (s.allocate_spare n junk).2.length) &&
      (match (s.allocate_spare n junk).1.commit k with
       | .ok t => windowsOk junk t rest
       | _ => true)

/-- A checked operation on the buffer: either an `allocate_spare` call or
a `commit` call.  (The query operations do not touch the state.) -/
inductive Op (α : Type) where
  | alloc (n : Nat) (junk : α)
  | commit (k : Nat)

/-- The state after one checked operation.  A panic aborts the process, so
it yields no successor state; for the purpose of the reachability
invariant the pre-state is kept. -/
def applyOp (s : SpareBuffer α) : Op α → SpareBuffer α
  | .alloc n junk => (s.allocate_spare n junk).1
  | .commit k =>
    match s.commit k with
    | .ok t => t
    | .fail t _ => t
    | .panic _ => s

/-- The state after a sequence of checked operations. -/
def runAll (s : SpareBuffer α) (ops : List (Op α)) : SpareBuffer α :=
  ops.foldl applyOp s

/-- The C4 invariant: the length is within the reserved capacity and
within the configured limit. -/
def Inv (s : SpareBuffer α) : Prop :=
  s.buffer.len ≤ s.buffer.capacity ∧ ∀ L, s.limit = some L → s.buffer.len ≤ L

/-! Concrete states used by the witness theorems. -/

def bufA : SpareBuffer Nat := ⟨⟨1, [5, 5, 5]⟩, some 4, true⟩

def bufA1 : SpareBuffer Nat := ⟨⟨2, [5, 5, 5]⟩, some 4, false⟩

def bufC : SpareBuffer Nat := ⟨⟨1, [5, 5]⟩, some 4, false⟩

def bufD : SpareBuffer Nat := ⟨⟨1, [5, 5, 5]⟩, some 2, true⟩

def bufD1 : SpareBuffer Nat := ⟨⟨1, [5, 5, 5]⟩, some 2, false⟩

/-! Basic facts about `Vec.reserve` and `allocate_spare`. -/

lemma Vec.reserve_len (v : Vec α) (n : Nat) (junk : α) :
    (v.reserve n junk).len = v.len := by
  unfold Vec.reserve; split <;> rfl

lemma Vec.reserve_capacity_ge (v : Vec α) (n : Nat) (junk : α) :
    v.len + n ≤ (v.reserve n junk).capacity := by
  unfold Vec.reserve Vec.capacity
  split
  · simp only [List.length_append, List.length_replicate]
    omega
  · omega

lemma Vec.reserve_capacity_ge_old (v : Vec α) (n : Nat) (junk : α) :
    v.capacity ≤ (v.reserve n junk).capacity := by
  unfold Vec.reserve Vec.capacity
  split
  · simp only [List.length_append, List.length_replicate]; omega
  · omega

lemma Vec.reserve_take (v : Vec α) (n : Nat) (junk : α) (h : v.len ≤ v.mem.length) :
    (v.reserve n junk).mem.take v.len = v.mem.take v.len := by
  unfold Vec.reserve
  split
  · exact List.take_append_of_le_length h
  · rfl

lemma Vec.reserve_WF (v : Vec α) (n : Nat) (junk : α) :
    (v.reserve n junk).WF := by
  have h := v.reserve_capacity_ge n junk
  have h' := v.reserve_len n junk
  unfold Vec.WF Vec.capacity at *
  omega

lemma SpareBuffer.allocate_spare_fst (s : SpareBuffer α) (n : Nat) (junk : α) :
    (s.allocate_spare n junk).1 =
      { buffer := s.buffer.reserve n junk, limit := s.limit, allocated := true } := rfl

lemma SpareBuffer.allocate_spare_snd (s : SpareBuffer α) (n : Nat) (junk : α) :
    (s.allocate_spare n junk).2 = (s.buffer.reserve n junk).spareCapacityMut := rfl

lemma SpareBuffer.allocate_spare_len (s : SpareBuffer α) (n : Nat) (junk : α) :
    (s.allocate_spare n junk).1.buffer.len = s.buffer.len := by
  rw [SpareBuffer.allocate_spare_fst]; exact s.buffer.reserve_len n junk

/-! Characterization of the five control paths through `commit`. -/

lemma SpareBuffer.commit_panic_of_idle (s : SpareBuffer α) (k : Nat)
    (ha : s.allocated = false) :
    s.commit k = .panic "No spare buffer allocated!" := by
  unfold commit
  rw [ha]
  simp

lemma SpareBuffer.commit_panic_of_overflow (s : SpareBuffer α) (k : Nat)
    (ha : s.allocated = true) (h0 : 0 < k) (hof : USIZE_MAX < s.buffer.len + k) :
    s.commit k = .panic "Numerical overflow! (new_length)" := by
  unfold commit
  rw [ha]
  simp only [if_true, if_pos h0, if_pos hof]

lemma SpareBuffer.commit_panic_of_capacity (s : SpareBuffer α) (k : Nat)
    (ha : s.allocated = true) (h0 : 0 < k) (hof : s.buffer.len + k ≤ USIZE_MAX)
    (hcap : s.buffer.capacity < s.buffer.len + k) :
    s.commit k = .panic "Commit size exceeds available capacity!" := by
  unfold commit
  rw [ha]
  simp only [if_true, if_pos h0, if_neg (Nat.not_lt.2 hof),
    if_neg (Nat.not_le.2 hcap)]

lemma SpareBuffer.commit_fail_of_limit (s : SpareBuffer α) (k : Nat) (L : Nat)
    (ha : s.allocated = true) (h0 : 0 < k) (hof : s.buffer.len + k ≤ USIZE_MAX)
    (hcap : s.buffer.len + k ≤ s.buffer.capacity)
    (hl : s.limit = some L) (hgt : L < s.buffer.len + k) :
    s.commit k = .fail { s with allocated := false }
      "The new length exceeds the specified limit!" := by
  unfold commit
  rw [ha]
  have hlim : ¬ s.buffer.len + k ≤ (Option.some L).getD USIZE_MAX := by
    simp only [Option.getD_some]; omega
  simp only [if_true, if_pos h0, if_neg (Nat.not_lt.2 hof), if_pos hcap, hl]
  rw [if_neg hlim]

lemma SpareBuffer.commit_ok (s : SpareBuffer α) (k : Nat)
    (ha : s.allocated = true) (hof : s.buffer.len + k ≤ USIZE_MAX)
    (hcap : s.buffer.len + k ≤ s.buffer.capacity)
    (hlim : s.buffer.len + k ≤ s.limit.getD USIZE_MAX) :
    s.commit k = .ok { s with buffer := s.buffer.setLen (s.buffer.len + k),
                              allocated := false } := by
  unfold commit
  rw [ha]
  by_cases h0 : 0 < k
  · simp only [if_true, if_pos h0, if_neg (Nat.not_lt.2 hof), if_pos hcap, if_pos hlim]
  · have hk : k = 0 := by omega
    subst hk
    simp only [if_true, if_neg h0]
    show CommitResult.ok _ = _
    congr 1

lemma SpareBuffer.commit_zero (s : SpareBuffer α) (ha : s.allocated = true) :
    s.commit 0 = .ok { s with allocated := false } := by
  unfold commit
  rw [ha]
  simp

lemma SpareBuffer.data_length (s : SpareBuffer α) (hwf : s.buffer.WF) :
    s.data.length = s.len := by
  unfold SpareBuffer.data Vec.asSlice SpareBuffer.len
  unfold Vec.WF at hwf
  rw [List.length_take]
  omega

/-- C3: for every buffer and positive `n`, `allocate_spare(n)` makes the
reserved capacity at least `current_length + n`, returns a window of size
at least `n`, equal to the whole unused capacity (capacity minus length),
and sets the pending (`allocated`) flag. -/
theorem claim_C3 (s : SpareBuffer α) (n : Nat) (junk : α) (hn : 0 < n) :
    s.buffer.len + n ≤ (s.allocate_spare n junk).1.buffer.capacity
    ∧ n ≤ (s.allocate_spare n junk).2.length
    ∧ (s.allocate_spare n junk).2.length
        = (s.allocate_spare n junk).1.buffer.capacity - (s.allocate_spare n junk).1.buffer.len
    ∧ (s.allocate_spare n junk).1.allocated = true := by
  refine ⟨?_, ?_, ?_, rfl⟩
  · rw [SpareBuffer.allocate_spare_fst]
    exact s.buffer.reserve_capacity_ge n junk
  · rw [SpareBuffer.allocate_spare_snd]
    have h1 := s.buffer.reserve_capacity_ge n junk
    unfold Vec.spareCapacityMut
    unfold Vec.capacity at h1
    rw [List.length_drop, s.buffer.reserve_len n junk]
    omega
  · rw [SpareBuffer.allocate_spare_snd, SpareBuffer.allocate_spare_fst]
    unfold Vec.spareCapacityMut Vec.capacity
    rw [List.length_drop]

/-- Witness for C3 at a concrete buffer. -/
theorem claim_C3_witness :
    0 < 2
    ∧ (bufC.buffer.len + 2 ≤ (bufC.allocate_spare 2 9).1.buffer.capacity
      ∧ 2 ≤ (bufC.allocate_spare 2 9).2.length
      ∧ (bufC.allocate_spare 2 9).2.length
          = (bufC.allocate_spare 2 9).1.buffer.capacity - (bufC.allocate_spare 2 9).1.buffer.len
      ∧ (bufC.allocate_spare 2 9).1.allocated = true) :=
  ⟨by decide, claim_C3 bufC 2 9 (by decide)⟩

/-- C10: `allocate_spare` changes neither the logical length nor the
committed contents nor the limit; only the capacity and the pending flag
may change. -/
theorem claim_C10 (s : SpareBuffer α) (n : Nat) (junk : α) (hn : 0 < n)
    (hwf : s.buffer.WF) :
    (s.allocate_spare n junk).1.len = s.len
    ∧ (s.allocate_spare n junk).1.data = s.data
    ∧ (s.allocate_spare n junk).1.limit = s.limit := by
  refine ⟨s.allocate_spare_len n junk, ?_, rfl⟩
  show ((s.allocate_spare n junk).1).buffer.asSlice = s.buffer.asSlice
  rw [SpareBuffer.allocate_spare_fst]
  unfold Vec.asSlice
  rw [s.buffer.reserve_len n junk]
  exact s.buffer.reserve_take n junk hwf

/-- Witness for C10 at a concrete buffer. -/
theorem claim_C10_witness :
    (0 < 2 ∧ bufC.buffer.WF)
    ∧ ((bufC.allocate_spare 2 9).1.len = bufC.len
      ∧ (bufC.allocate_spare 2 9).1.data = bufC.data
      ∧ (bufC.allocate_spare 2 9).1.limit = bufC.limit) :=
  ⟨⟨by decide, by decide⟩, claim_C10 bufC 2 9 (by decide) (by decide)⟩

/-- C7: construction performs no visible mutation of the vector and
initializes `allocated` to false and the limit as given; the query
operations are pure delegations, and the committed view is exactly the
first `len` elements of the store and never overlaps the spare tail. -/
theorem claim_C7 (v : Vec α) (l : Option Nat) (s : SpareBuffer α)
    (hwf : s.buffer.WF) :
    (SpareBuffer.fromVec v l).buffer = v
    ∧ (SpareBuffer.fromVec v l).allocated = false
    ∧ (SpareBuffer.fromVec v l).limit = l
    ∧ (SpareBuffer.fromVec v l).data = v.mem.take v.len
    ∧ s.data.length = s.len
    ∧ s.data ++ s.buffer.spareCapacityMut = s.buffer.mem
    ∧ (s.is_empty = true ↔ s.len = 0) := by
  refine ⟨rfl, rfl, rfl, rfl, s.data_length hwf, ?_, ?_⟩
  · unfold SpareBuffer.data Vec.asSlice Vec.spareCapacityMut
    exact List.take_append_drop _ _
  · unfold SpareBuffer.is_empty Vec.isEmpty SpareBuffer.len
    simp

/-- Witness for C7 at a concrete vector and buffer. -/
theorem claim_C7_witness :
    bufC.buffer.WF
    ∧ ((SpareBuffer.fromVec (Vec.mk 1 [5, 5]) (some 4)).buffer = Vec.mk 1 [5, 5]
      ∧ (SpareBuffer.fromVec (Vec.mk 1 [5, 5]) (some 4)).allocated = false
      ∧ (SpareBuffer.fromVec (Vec.mk 1 [5, 5]) (some 4)).limit = some 4
      ∧ (SpareBuffer.fromVec (Vec.mk 1 [5, 5]) (some 4)).data
          = (Vec.mk 1 [5, 5]).mem.take (Vec.mk 1 [5, 5]).len
      ∧ bufC.data.length = bufC.len
      ∧ bufC.data ++ bufC.buffer.spareCapacityMut = bufC.buffer.mem
      ∧ (bufC.is_empty = true ↔ bufC.len = 0)) :=
  ⟨by decide, claim_C7 (Vec.mk 1 [5, 5]) (some 4) bufC (by decide)⟩

/-- C5: after `commit` returns (with `Ok` or with the recoverable
limit-exceeded failure) or after `commit_unchecked`, the pending flag is
false; and a `commit` issued while no window is pending panics, so it is
never accepted in the Idle state. -/
theorem claim_C5 (α : Type) :
    (∀ (s : SpareBuffer α) (k : Nat) (t : SpareBuffer α),
        s.commit k = .ok t → t.allocated = false)
    ∧ (∀ (s : SpareBuffer α) (k : Nat) (t : SpareBuffer α) (m : String),
        s.commit k = .fail t m → t.allocated = false)
    ∧ (∀ (s : SpareBuffer α) (k : Nat), (s.commit_unchecked k).allocated = false)
    ∧ (∀ (s : SpareBuffer α) (k : Nat), s.allocated = false →
        ∃ m, s.commit k = .panic m) := by
  refine ⟨?_, ?_, ?_, ?_⟩
  · intro s k t h
    unfold SpareBuffer.commit at h
    split at h
    · split at h
      · split at h
        · cases h
        · split at h
          · split at h
            · cases h; rfl
            · cases h
          · cases h
      · cases h; rfl
    · cases h
  · intro s k t m h
    unfold SpareBuffer.commit at h
    split at h
    · split at h
      · split at h
        · cases h
        · split at h
          · split at h
            · cases h
            · cases h; rfl
          · cases h
      · cases h
    · cases h
  · intro s k
    unfold SpareBuffer.commit_unchecked
    split <;> rfl
  · intro s k ha
    exact ⟨_, s.commit_panic_of_idle k ha⟩

/-- Witness for C5 at concrete buffers: a successful commit, a
limit-exceeded commit, an unchecked commit, and a commit in the Idle
state. -/
theorem claim_C5_witness :
    bufA1.allocated = false
    ∧ bufD1.allocated = false
    ∧ (bufA.commit_unchecked 1).allocated = false
    ∧ ∃ m, bufC.commit 0 = .panic m :=
  ⟨(claim_C5 Nat).1 bufA 1 bufA1 (by decide),
   (claim_C5 Nat).2.1 bufD 2 bufD1 "The new length exceeds the specified limit!" (by decide),
   (claim_C5 Nat).2.2.1 bufA 1,
   (claim_C5 Nat).2.2.2 bufC 0 (by decide)⟩

/-- C8: `from` never validates the wrapped vector's length against the
limit: for every vector already longer than the limit, construction
succeeds unchanged, and an `allocate_spare` followed by `commit(0)`
returns `Ok` even though the length exceeds the limit, because `commit`
skips the limit check entirely when `k = 0`. -/
theorem claim_C8 (v : Vec α) (L n : Nat) (junk : α) (hL : L < v.len) (hn : 0 < n) :
    (SpareBuffer.fromVec v (some L)).limit = some L
    ∧ (SpareBuffer.fromVec v (some L)).buffer = v
    ∧ ∃ t, ((SpareBuffer.fromVec v (some L)).allocate_spare n junk).1.commit 0 = .ok t
        ∧ t.buffer.len = v.len ∧ L < t.buffer.len := by
  refine ⟨rfl, rfl,
    ⟨{ buffer := v.reserve n junk, limit := some L, allocated := false }, ?_, ?_, ?_⟩⟩
  · exact SpareBuffer.commit_zero _ rfl
  · exact v.reserve_len n junk
  · rw [v.reserve_len n junk]; exact hL

/-- Witness for C8 at a concrete over-long vector. -/
theorem claim_C8_witness :
    (1 < (Vec.mk 2 [7, 7] : Vec Nat).len ∧ 0 < 1)
    ∧ ((SpareBuffer.fromVec (Vec.mk 2 [7, 7]) (some 1)).limit = some 1
      ∧ (SpareBuffer.fromVec (Vec.mk 2 [7, 7]) (some 1)).buffer = Vec.mk 2 [7, 7]
      ∧ ∃ t, ((SpareBuffer.fromVec (Vec.mk 2 [7, 7]) (some 1)).allocate_spare 1 0).1.commit 0
            = .ok t
          ∧ t.buffer.len = (Vec.mk 2 [7, 7] : Vec Nat).len ∧ 1 < t.buffer.len) :=
  ⟨⟨by decide, by decide⟩, claim_C8 (Vec.mk 2 [7, 7]) 1 1 0 (by decide) (by decide)⟩

/-- C9: the pending-window and spare-capacity assertions fire before the
limit comparison: when `k` exceeds the available spare capacity, a commit
that would also exceed the configured limit panics instead of returning
the recoverable capacity-exceeded error. -/
theorem claim_C9 (s : SpareBuffer α) (k L : Nat)
    (hwf : s.buffer.WF) (ha : s.allocated = true)
    (hk : s.buffer.capacity - s.buffer.len < k)
    (hl : s.limit = some L) (hgt : L < s.buffer.len + k) :
    ∃ m, s.commit k = .panic m := by
  unfold Vec.WF at hwf
  have h0 : 0 < k := by omega
  have hcap : s.buffer.capacity < s.buffer.len + k := by
    unfold Vec.capacity at *; omega
  by_cases hof : USIZE_MAX < s.buffer.len + k
  · exact ⟨_, s.commit_panic_of_overflow k ha h0 hof⟩
  · exact ⟨_, s.commit_panic_of_capacity k ha h0 (by omega) hcap⟩

/-- Witness for C9 at a concrete buffer: `k = 3` exceeds both the spare
capacity and the limit, and the commit panics. -/
theorem claim_C9_witness :
    ((⟨⟨1, [5, 5]⟩, some 1, true⟩ : SpareBuffer Nat).buffer.WF
      ∧ (⟨⟨1, [5, 5]⟩, some 1, true⟩ : SpareBuffer Nat).allocated = true
      ∧ (⟨⟨1, [5, 5]⟩, some 1, true⟩ : SpareBuffer Nat).buffer.capacity
          - (⟨⟨1, [5, 5]⟩, some 1, true⟩ : SpareBuffer Nat).buffer.len < 3
      ∧ (1 : Nat) < (⟨⟨1, [5, 5]⟩, some 1, true⟩ : SpareBuffer Nat).buffer.len + 3)
    ∧ ∃ m, (⟨⟨1, [5, 5]⟩, some 1, true⟩ : SpareBuffer Nat).commit 3 = .panic m :=
  ⟨⟨by decide, by decide, by decide, by decide⟩,
   claim_C9 ⟨⟨1, [5, 5]⟩, some 1, true⟩ 3 1 (by decide) (by decide) (by decide) rfl
     (by decide)⟩

/-- C6: for a well-formed vector (length within capacity, capacity within
`usize`), `commit(k)` panics precisely under the three programmer-error
conditions: no window pending, `k` exceeding the spare capacity, or the
new length overflowing `usize`; in every other case it returns a value. -/
theorem claim_C6 (s : SpareBuffer α) (k : Nat)
    (hwf : s.buffer.WF) (hcap : s.buffer.capacity ≤ USIZE_MAX) :
    (∃ m, s.commit k = .panic m) ↔
      (s.allocated = false ∨ s.buffer.capacity - s.buffer.len < k
        ∨ USIZE_MAX < s.buffer.len + k) := by
  unfold Vec.WF at hwf
  unfold Vec.capacity at *
  constructor
  · rintro ⟨m, hm⟩
    by_contra hno
    push_neg at hno
    obtain ⟨ha, hk, hof⟩ := hno
    have ha' : s.allocated = true := by
      cases hA : s.allocated
      · exact absurd hA ha
      · rfl
    have hlenk : s.buffer.len + k ≤ s.buffer.capacity := by
      unfold Vec.capacity; omega
    rcases hl : s.limit with _ | L
    · rw [s.commit_ok k ha' (by omega) hlenk (by rw [hl, Option.getD_none]; omega)] at hm
      cases hm
    · by_cases hle : s.buffer.len + k ≤ L
      · rw [s.commit_ok k ha' (by omega) hlenk (by rw [hl, Option.getD_some]; exact hle)] at hm
        cases hm
      · by_cases h0 : 0 < k
        · rw [s.commit_fail_of_limit k L ha' h0 (by omega) hlenk hl (by omega)] at hm
          cases hm
        · have hk0 : k = 0 := by omega
          subst hk0
          rw [s.commit_zero ha'] at hm
          cases hm
  · intro h
    by_cases ha : s.allocated = true
    · rcases h with ha' | hk | hof
      · rw [ha] at ha'; cases ha'
      · have h0 : 0 < k := by omega
        by_cases hof' : USIZE_MAX < s.buffer.len + k
        · exact ⟨_, s.commit_panic_of_overflow k ha h0 hof'⟩
        · exact ⟨_, s.commit_panic_of_capacity k ha h0 (by omega)
            (by unfold Vec.capacity; omega)⟩
      · have h0 : 0 < k := by omega
        exact ⟨_, s.commit_panic_of_overflow k ha h0 hof⟩
    · have ha' : s.allocated = false := by
        cases hA : s.allocated
        · rfl
        · exact absurd hA ha
      exact ⟨_, s.commit_panic_of_idle k ha'⟩

/-- Witness for C6 at a concrete Idle buffer: the commit panics and the
first disjunct of the programmer-error condition holds. -/
theorem claim_C6_witness :
    (bufC.buffer.WF ∧ bufC.buffer.capacity ≤ USIZE_MAX)
    ∧ ((∃ m, bufC.commit 1 = .panic m) ↔
        (bufC.allocated = false ∨ bufC.buffer.capacity - bufC.buffer.len < 1
          ∨ USIZE_MAX < bufC.buffer.len + 1)) :=
  ⟨⟨by decide, by decide⟩, claim_C6 bufC 1 (by decide) (by decide)⟩

/-- C1 (amended): for a well-formed pending buffer and `k` within the
spare capacity, when a limit `L` is configured and `k` is positive,
`commit(k)` fails with the capacity-exceeded error exactly when
`len + k > L`, and the length is unchanged after such a failure; with no
limit set, `commit(k)` never fails.  (The original claim, without the
`0 < k` proviso, is refuted by `claim_C1_cex`: `commit(0)` skips the
limit check.) -/
theorem claim_C1 (s : SpareBuffer α) (k : Nat)
    (hwf : s.buffer.WF) (hcap : s.buffer.capacity ≤ USIZE_MAX)
    (ha : s.allocated = true) (hk : k ≤ s.buffer.capacity - s.buffer.len) :
    (∀ L, s.limit = some L → 0 < k →
      (((∃ t m, s.commit k = .fail t m) ↔ L < s.buffer.len + k)
        ∧ ∀ t m, s.commit k = .fail t m → t.buffer.len = s.buffer.len))
    ∧ (s.limit = none → ∃ t, s.commit k = .ok t) := by
  unfold Vec.WF at hwf
  unfold Vec.capacity at hcap hk
  have hlenk : s.buffer.len + k ≤ s.buffer.capacity := by
    unfold Vec.capacity; omega
  have hof : s.buffer.len + k ≤ USIZE_MAX := by omega
  constructor
  · intro L hl h0
    constructor
    · constructor
      · rintro ⟨t, m, hm⟩
        by_contra hle
        push_neg at hle
        rw [s.commit_ok k ha hof hlenk (by rw [hl, Option.getD_some]; exact hle)] at hm
        cases hm
      · intro hgt
        exact ⟨_, _, s.commit_fail_of_limit k L ha h0 hof hlenk hl hgt⟩
    · intro t m hm
      by_cases hgt : L < s.buffer.len + k
      · rw [s.commit_fail_of_limit k L ha h0 hof hlenk hl hgt] at hm
        cases hm
        rfl
      · rw [s.commit_ok k ha hof hlenk (by rw [hl, Option.getD_some]; omega)] at hm
        cases hm
  · intro hl
    exact ⟨_, s.commit_ok k ha hof hlenk (by rw [hl, Option.getD_none]; omega)⟩

/-- Counterexample to C1 as stated: wrap a vector of length 2 with limit
1 (so `len + k > L` for `k = 0`, which does not exceed the spare
capacity), allocate a window, and commit 0 elements: the claim requires a
capacity-exceeded failure, but the code returns `Ok`. -/
theorem claim_C1_cex :
    ((SpareBuffer.fromVec (Vec.mk 2 [7, 7]) (some 1)).allocate_spare 1 0).1.allocated = true
    ∧ ((SpareBuffer.fromVec (Vec.mk 2 [7, 7]) (some 1)).allocate_spare 1 0).1.limit = some 1
    ∧ (1 : Nat) <
        ((SpareBuffer.fromVec (Vec.mk 2 [7, 7]) (some 1)).allocate_spare 1 0).1.buffer.len + 0
    ∧ ((SpareBuffer.fromVec (Vec.mk 2 [7, 7]) (some 1)).allocate_spare 1 0).1.commit 0
        = .ok ⟨⟨2, [7, 7, 0]⟩, some 1, false⟩ := by
  decide

/-- Witness for C1 at a concrete pending buffer with limit 2 and `k = 2`. -/
theorem claim_C1_witness :
    (bufD.buffer.WF ∧ bufD.buffer.capacity ≤ USIZE_MAX
      ∧ bufD.allocated = true ∧ 2 ≤ bufD.buffer.capacity - bufD.buffer.len)
    ∧ ((∀ L, bufD.limit = some L → 0 < 2 →
        (((∃ t m, bufD.commit 2 = .fail t m) ↔ L < bufD.buffer.len + 2)
          ∧ ∀ t m, bufD.commit 2 = .fail t m → t.buffer.len = bufD.buffer.len))
      ∧ (bufD.limit = none → ∃ t, bufD.commit 2 = .ok t)) :=
  ⟨⟨by decide, by decide, by decide, by decide⟩,
   claim_C1 bufD 2 (by decide) (by decide) (by decide) (by decide)⟩

lemma SpareBuffer.commit_ok_step (s : SpareBuffer α) (k : Nat)
    (ha : s.allocated = true) (hof : s.buffer.len + k ≤ USIZE_MAX)
    (hcap : s.buffer.len + k ≤ s.buffer.capacity)
    (hlim : s.buffer.len + k ≤ s.limit.getD USIZE_MAX) :
    ∃ t, s.commit k = .ok t ∧ t.buffer.len = s.buffer.len + k
      ∧ t.buffer.mem = s.buffer.mem ∧ t.limit = s.limit ∧ t.allocated = false :=
  ⟨_, s.commit_ok k ha hof hcap hlim, rfl, rfl, rfl, rfl⟩

lemma runCommits_cons (junk : α) (s t : SpareBuffer α) (n k : Nat)
    (rest : List (Nat × Nat))
    (hc : ((s.allocate_spare n junk).1).commit k = .ok t) :
    runCommits junk s ((n, k) :: rest) = runCommits junk t rest := by
  simp only [runCommits, hc]

lemma windowsOk_head (junk : α) (s : SpareBuffer α) (n k : Nat)
    (rest : List (Nat × Nat))
    (hw : windowsOk junk s ((n, k) :: rest) = true) :
    k ≤ ((s.allocate_spare n junk).2).length := by
  unfold windowsOk at hw
  rw [Bool.and_eq_true] at hw
  exact of_decide_eq_true hw.1

lemma windowsOk_tail (junk : α) (s t : SpareBuffer α) (n k : Nat)
    (rest : List (Nat × Nat))
    (hc : ((s.allocate_spare n junk).1).commit k = .ok t)
    (hw : windowsOk junk s ((n, k) :: rest) = true) :
    windowsOk junk t rest = true := by
  unfold windowsOk at hw
  rw [hc, Bool.and_eq_true] at hw
  exact hw.2

/-- C2: along any trace of `allocate_spare(n)/commit(k)` rounds with each
`k` within that round's window, the running total within the limit and
within `usize`, every commit succeeds, after any prefix the length equals
the initial length plus the committed counts so far (so each commit grows
it by exactly `k`), and the committed view's length equals the logical
length at every point. -/
theorem claim_C2 (junk : α) (s : SpareBuffer α) (ops : List (Nat × Nat))
    (hwf : s.buffer.WF)
    (hpos : ∀ p ∈ ops, 0 < p.1)
    (hwin : windowsOk junk s ops = true)
    (hlim : ∀ L, s.limit = some L → s.buffer.len + sumK ops ≤ L)
    (hof : s.buffer.len + sumK ops ≤ USIZE_MAX) :
    ∀ pre suf, ops = pre ++ suf →
      ∃ u, runCommits junk s pre = some u
        ∧ u.buffer.len = s.buffer.len + sumK pre
        ∧ u.data.length = u.len
        ∧ u.buffer.WF
        ∧ u.limit = s.limit := by
  induction ops generalizing s with
  | nil =>
    intro pre suf h
    obtain ⟨hpre, _⟩ := List.append_eq_nil.mp h.symm
    subst hpre
    exact ⟨s, rfl, by simp [sumK], s.data_length hwf, hwf, rfl⟩
  | cons op rest ih =>
    obtain ⟨n, k⟩ := op
    intro pre suf h
    have hsumc : sumK ((n, k) :: rest) = k + sumK rest := by
      simp [sumK]
    have h1a : ((s.allocate_spare n junk).1).allocated = true := rfl
    have h1len : ((s.allocate_spare n junk).1).buffer.len = s.buffer.len :=
      s.allocate_spare_len n junk
    have h1lim : ((s.allocate_spare n junk).1).limit = s.limit := rfl
    have h1wf : ((s.allocate_spare n junk).1).buffer.WF := by
      rw [SpareBuffer.allocate_spare_fst]
      exact s.buffer.reserve_WF n junk
    have hkwin := windowsOk_head junk s n k rest hwin
    have hwlen : ((s.allocate_spare n junk).2).length
        = ((s.allocate_spare n junk).1).buffer.capacity
          - ((s.allocate_spare n junk).1).buffer.len := by
      rw [SpareBuffer.allocate_spare_snd, SpareBuffer.allocate_spare_fst]
      unfold Vec.spareCapacityMut Vec.capacity
      rw [List.length_drop]
    have hcap1 : ((s.allocate_spare n junk).1).buffer.len + k
        ≤ ((s.allocate_spare n junk).1).buffer.capacity := by
      rw [hwlen] at hkwin
      have h2 := h1wf
      unfold Vec.WF Vec.capacity at *
      omega
    have hof1 : ((s.allocate_spare n junk).1).buffer.len + k ≤ USIZE_MAX := by
      rw [hsumc] at hof
      rw [h1len]
      omega
    have hlim1 : ((s.allocate_spare n junk).1).buffer.len + k
        ≤ ((s.allocate_spare n junk).1).limit.getD USIZE_MAX := by
      rw [h1len, h1lim]
      rcases hlv : s.limit with _ | L
      · rw [Option.getD_none]
        rw [hsumc] at hof
        omega
      · rw [Option.getD_some]
        have hL := hlim L hlv
        rw [hsumc] at hL
        omega
    obtain ⟨t, hc, htlen, htmem, htlim, hta⟩ :=
      SpareBuffer.commit_ok_step _ k h1a hof1 hcap1 hlim1
    have htwf : t.buffer.WF := by
      unfold Vec.WF
      unfold Vec.capacity at hcap1
      rw [htlen, htmem, h1len]
      rw [h1len] at hcap1
      omega
    have hwin2 := windowsOk_tail junk s t n k rest hc hwin
    have hlim2 : ∀ L, t.limit = some L → t.buffer.len + sumK rest ≤ L := by
      intro L hL
      rw [htlim, h1lim] at hL
      have hL2 := hlim L hL
      rw [hsumc] at hL2
      rw [htlen, h1len]
      omega
    have hof2 : t.buffer.len + sumK rest ≤ USIZE_MAX := by
      rw [htlen, h1len]
      rw [hsumc] at hof
      omega
    have hpos2 : ∀ p ∈ rest, 0 < p.1 := fun p hp => hpos p (List.mem_cons_of_mem _ hp)
    cases pre with
    | nil =>
      exact ⟨s, rfl, by simp [sumK], s.data_length hwf, hwf, rfl⟩
    | cons q pre' =>
      rw [List.cons_append] at h
      injection h with h1 h2
      subst h1
      obtain ⟨u, hu1, hu2, hu3, hu4, hu5⟩ := ih t htwf hpos2 hwin2 hlim2 hof2 pre' suf h2
      refine ⟨u, ?_, ?_, hu3, hu4, ?_⟩
      · rw [runCommits_cons junk s t n k pre' hc]
        exact hu1
      · rw [hu2, htlen, h1len]
        simp only [sumK, List.map_cons, List.sum_cons]
        omega
      · rw [hu5, htlim, h1lim]

/-- Witness for C2: two rounds committing 4 then 2 elements into an
initially empty vector with limit 10. -/
theorem claim_C2_witness :
    ((SpareBuffer.fromVec (Vec.mk 0 ([] : List Nat)) (some 10)).buffer.WF
      ∧ (∀ p ∈ [((4 : Nat), (4 : Nat)), (4, 2)], 0 < Prod.fst p)
      ∧ windowsOk 0 (SpareBuffer.fromVec (Vec.mk 0 []) (some 10)) [(4, 4), (4, 2)] = true
      ∧ (SpareBuffer.fromVec (Vec.mk 0 ([] : List Nat)) (some 10)).buffer.len
          + sumK [(4, 4), (4, 2)] ≤ USIZE_MAX)
    ∧ ∀ pre suf, [((4 : Nat), (4 : Nat)), (4, 2)] = pre ++ suf →
        ∃ u, runCommits 0 (SpareBuffer.fromVec (Vec.mk 0 []) (some 10)) pre = some u
          ∧ u.buffer.len
              = (SpareBuffer.fromVec (Vec.mk 0 ([] : List Nat)) (some 10)).buffer.len
                + sumK pre
          ∧ u.data.length = u.len
          ∧ u.buffer.WF
          ∧ u.limit = (SpareBuffer.fromVec (Vec.mk 0 ([] : List Nat)) (some 10)).limit :=
  ⟨⟨by decide, by decide, by decide, by decide⟩,
   claim_C2 0 (SpareBuffer.fromVec (Vec.mk 0 []) (some 10)) [(4, 4), (4, 2)]
     (by decide) (by decide) (by decide)
     (fun L hL => by
       have h10 : (10 : Nat) = L := Option.some.inj hL
       subst h10
       decide)
     (by decide)⟩

lemma commit_inv (s : SpareBuffer α) (k : Nat) (h : Inv s) :
    (∀ t, s.commit k = .ok t → Inv t) ∧ (∀ t m, s.commit k = .fail t m → Inv t) := by
  constructor
  · intro t ht
    unfold SpareBuffer.commit at ht
    split at ht
    · split at ht
      · split at ht
        · cases ht
        · split at ht
          case isTrue hcap =>
            split at ht
            case isTrue hlim =>
              cases ht
              constructor
              · exact hcap
              · intro L hL
                have hL2 : s.limit = some L := hL
                rw [hL2, Option.getD_some] at hlim
                exact hlim
            case isFalse hlim => cases ht
          case isFalse hcap => cases ht
      · cases ht
        exact h
    · cases ht
  · intro t m ht
    unfold SpareBuffer.commit at ht
    split at ht
    · split at ht
      · split at ht
        · cases ht
        · split at ht
          · split at ht
            · cases ht
            · cases ht
              exact h
          · cases ht
      · cases ht
    · cases ht

lemma applyOp_inv (s : SpareBuffer α) (op : Op α) (h : Inv s) : Inv (applyOp s op) := by
  cases op with
  | alloc n junk =>
    constructor
    · show ((s.allocate_spare n junk).1).buffer.len
        ≤ ((s.allocate_spare n junk).1).buffer.capacity
      rw [SpareBuffer.allocate_spare_fst]
      have hr := s.buffer.reserve_WF n junk
      unfold Vec.WF Vec.capacity at *
      exact hr
    · intro L hL
      show ((s.allocate_spare n junk).1).buffer.len ≤ L
      rw [s.allocate_spare_len n junk]
      exact h.2 L hL
  | commit k =>
    have hci := commit_inv s k h
    cases hc : s.commit k with
    | ok t =>
      simp only [applyOp, hc]
      exact hci.1 t hc
    | fail t m =>
      simp only [applyOp, hc]
      exact hci.2 t m hc
    | panic m =>
      simp only [applyOp, hc]
      exact h

lemma runAll_inv (ops : List (Op α)) : ∀ s : SpareBuffer α, Inv s → Inv (runAll s ops) := by
  induction ops with
  | nil => intro s h; exact h
  | cons op rest ih => intro s h; exact ih _ (applyOp_inv s op h)

/-- C4 (amended): starting from a well-formed vector whose length does not
already exceed the configured limit, along every sequence of checked
operations the logical length never exceeds the reserved capacity and
never exceeds the limit when one is set.  (Without the proviso on the
initial vector the claim fails, `claim_C4_cex`: `from` performs no
validation, so a wrapped vector longer than the limit violates the limit
invariant from the start.) -/
theorem claim_C4 (v : Vec α) (l : Option Nat) (ops : List (Op α))
    (hwf : v.WF) (hl : ∀ L, l = some L → v.len ≤ L) :
    (runAll (SpareBuffer.fromVec v l) ops).buffer.len
        ≤ (runAll (SpareBuffer.fromVec v l) ops).buffer.capacity
    ∧ ∀ L, (runAll (SpareBuffer.fromVec v l) ops).limit = some L →
        (runAll (SpareBuffer.fromVec v l) ops).buffer.len ≤ L := by
  have h0 : Inv (SpareBuffer.fromVec v l) := ⟨hwf, fun L hL => hl L hL⟩
  exact runAll_inv ops _ h0

/-- Counterexample to C4 as stated: constructing over a vector of length 2
with limit 1 is a sequence of checked operations (the construction alone)
after which the logical length exceeds the limit. -/
theorem claim_C4_cex :
    (Vec.mk 2 [7, 7] : Vec Nat).WF
    ∧ (runAll (SpareBuffer.fromVec (Vec.mk 2 [7, 7]) (some 1)) []).limit = some 1
    ∧ ¬ (runAll (SpareBuffer.fromVec (Vec.mk 2 [7, 7]) (some 1)) []).buffer.len ≤ 1 := by
  decide

/-- Witness for C4: an in-limit vector, one allocation and one commit. -/
theorem claim_C4_witness :
    ((Vec.mk 1 [7, 7] : Vec Nat).WF)
    ∧ ((runAll (SpareBuffer.fromVec (Vec.mk 1 [7, 7]) (some 5))
          [Op.alloc 2 0, Op.commit 1]).buffer.len
        ≤ (runAll (SpareBuffer.fromVec (Vec.mk 1 [7, 7]) (some 5))
            [Op.alloc 2 0, Op.commit 1]).buffer.capacity
      ∧ ∀ L, (runAll (SpareBuffer.fromVec (Vec.mk 1 [7, 7]) (some 5))
            [Op.alloc 2 0, Op.commit 1]).limit = some L →
          (runAll (SpareBuffer.fromVec (Vec.mk 1 [7, 7]) (some 5))
            [Op.alloc 2 0, Op.commit 1]).buffer.len ≤ L) :=
  ⟨by decide,
   claim_C4 (Vec.mk 1 [7, 7]) (some 5) [Op.alloc 2 0, Op.commit 1]
     (by decide)
     (fun L hL => by
       have h5 : (5 : Nat) = L := Option.some.inj hL
       subst h5
       decide)⟩

end SpareBuf
